import Mathlib

/-!
Verification of the asynchronous event-distribution subsystem of
`src/core/http.go` (archive worker, archiving adapter, broadcast hub).

Bytes are modelled as `Nat` values below 256; Go byte slices become
`List Nat`.  Channel receives that can block are modelled with `Option`
(`none` = the operation blocks).  External collaborators (the gzip codec
from `compress/gzip`, the JSON encoder, `util.Create`) are parameters of
the embedding; the base64 codec (`encoding/base64`, StdEncoding) is
modelled executably below because the round-trip claim depends on it.
-/

/-- Sextet-to-character table of the standard base64 alphabet
`A-Za-z0-9+/` used by Go `base64.StdEncoding`; returns the byte code of
the character for sextet `n` (n < 64). -/
def b64Code (n : Nat) : Nat :=
  if n < 26 then 65 + n
  else if n < 52 then 97 + (n - 26)
  else if n < 62 then 48 + (n - 52)
  else if n = 62 then 43
  else 47

/-- Inverse character table of the standard base64 alphabet: byte code of
a character back to its sextet, `none` for characters outside the
alphabet (in particular the padding character 61, ASCII for the equals
sign). -/
def b64Val (c : Nat) : Option Nat :=
  if 65 ≤ c ∧ c ≤ 90 then some (c - 65)
  else if 97 ≤ c ∧ c ≤ 122 then some (26 + (c - 97))
  else if 48 ≤ c ∧ c ≤ 57 then some (52 + (c - 48))
  else if c = 43 then some 62
  else if c = 47 then some 63
  else none

/-- Model of Go `base64.StdEncoding.EncodeToString` on a byte sequence:
groups of three bytes become four alphabet characters; a trailing group
of one or two bytes is padded with the character 61 (equals sign). -/
def base64Encode : List Nat → List Nat
  | [] => []
  | [b1] => [b64Code (b1 / 4), b64Code (b1 % 4 * 16), 61, 61]
  | [b1, b2] => [b64Code (b1 / 4), b64Code (b1 % 4 * 16 + b2 / 16), b64Code (b2 % 16 * 4), 61]
  | b1 :: b2 :: b3 :: rest =>
      b64Code (b1 / 4) :: b64Code (b1 % 4 * 16 + b2 / 16) ::
      b64Code (b2 % 16 * 4 + b3 / 64) :: b64Code (b3 % 64) ::
      base64Encode rest

/-- Model of Go `base64.StdEncoding.DecodeString`: decodes four-character
quanta, handling the two padded final quanta; `none` on input that is not
valid base64. -/
def base64Decode : List Nat → Option (List Nat)
  | [] => some []
  | c1 :: c2 :: c3 :: c4 :: rest =>
      match b64Val c1, b64Val c2 with
      | some v1, some v2 =>
          if c3 = 61 then
            if c4 = 61 ∧ rest = [] then some [v1 * 4 + v2 / 16] else none
          else
            match b64Val c3 with
            | some v3 =>
                if c4 = 61 then
                  if rest = [] then some [v1 * 4 + v2 / 16, v2 % 16 * 16 + v3 / 4] else none
                else
                  match b64Val c4 with
                  | some v4 =>
                      (base64Decode rest).map
                        (fun tail =>
                          (v1 * 4 + v2 / 16) :: (v2 % 16 * 16 + v3 / 4) ::
                          (v3 % 4 * 64 + v4) :: tail)
                  | none => none
            | none => none
      | _, _ => none
  | _ => none

theorem b64Val_b64Code (s : Nat) (h : s < 64) : b64Val (b64Code s) = some s := by
  have hall : ∀ t : Fin 64, b64Val (b64Code t.val) = some t.val := by decide
  exact hall ⟨s, h⟩

theorem b64Code_ne_61 (s : Nat) (h : s < 64) : b64Code s ≠ 61 := by
  have hall : ∀ t : Fin 64, b64Code t.val ≠ 61 := by decide
  exact hall ⟨s, h⟩

theorem base64Decode_pad2 (c1 c2 v1 v2 : Nat)
    (h1 : b64Val c1 = some v1) (h2 : b64Val c2 = some v2) :
    base64Decode [c1, c2, 61, 61] = some [v1 * 4 + v2 / 16] := by
  simp [base64Decode, h1, h2]

theorem base64Decode_pad1 (c1 c2 c3 v1 v2 v3 : Nat)
    (h1 : b64Val c1 = some v1) (h2 : b64Val c2 = some v2) (h3 : b64Val c3 = some v3)
    (hc3 : c3 ≠ 61) :
    base64Decode [c1, c2, c3, 61] = some [v1 * 4 + v2 / 16, v2 % 16 * 16 + v3 / 4] := by
  simp [base64Decode, h1, h2, h3, hc3]

theorem base64Decode_quad (c1 c2 c3 c4 v1 v2 v3 v4 : Nat) (rest : List Nat)
    (h1 : b64Val c1 = some v1) (h2 : b64Val c2 = some v2) (h3 : b64Val c3 = some v3)
    (h4 : b64Val c4 = some v4) (hc3 : c3 ≠ 61) (hc4 : c4 ≠ 61) :
    base64Decode (c1 :: c2 :: c3 :: c4 :: rest) =
      (base64Decode rest).map
        (fun tail =>
          (v1 * 4 + v2 / 16) :: (v2 % 16 * 16 + v3 / 4) :: (v3 % 4 * 64 + v4) :: tail) := by
  simp [base64Decode, h1, h2, h3, h4, hc3, hc4]

/-- Decoding inverts encoding on any genuine byte sequence (all entries
below 256).  This is the base64 half of the round-trip invariant. -/
theorem base64_roundtrip :
    ∀ bs : List Nat, (∀ b ∈ bs, b < 256) → base64Decode (base64Encode bs) = some bs
  | [], _ => rfl
  | [b1], h => by
      have hb1 : b1 < 256 := h b1 (by simp)
      rw [show base64Encode [b1] = [b64Code (b1 / 4), b64Code (b1 % 4 * 16), 61, 61] from rfl,
        base64Decode_pad2 _ _ _ _ (b64Val_b64Code _ (by omega)) (b64Val_b64Code _ (by omega))]
      have : b1 / 4 * 4 + b1 % 4 * 16 / 16 = b1 := by omega
      rw [this]
  | [b1, b2], h => by
      have hb1 : b1 < 256 := h b1 (by simp)
      have hb2 : b2 < 256 := h b2 (by simp)
      rw [show base64Encode [b1, b2] =
            [b64Code (b1 / 4), b64Code (b1 % 4 * 16 + b2 / 16), b64Code (b2 % 16 * 4), 61]
          from rfl,
        base64Decode_pad1 _ _ _ _ _ _ (b64Val_b64Code _ (by omega)) (b64Val_b64Code _ (by omega))
          (b64Val_b64Code _ (by omega)) (b64Code_ne_61 _ (by omega))]
      have e1 : b1 / 4 * 4 + (b1 % 4 * 16 + b2 / 16) / 16 = b1 := by omega
      have e2 : (b1 % 4 * 16 + b2 / 16) % 16 * 16 + b2 % 16 * 4 / 4 = b2 := by omega
      rw [e1, e2]
  | b1 :: b2 :: b3 :: rest, h => by
      have hb1 : b1 < 256 := h b1 (by simp)
      have hb2 : b2 < 256 := h b2 (by simp)
      have hb3 : b3 < 256 := h b3 (by simp)
      have ih := base64_roundtrip rest (fun b hb => h b (by simp [hb]))
      rw [show base64Encode (b1 :: b2 :: b3 :: rest) =
            b64Code (b1 / 4) :: b64Code (b1 % 4 * 16 + b2 / 16) ::
            b64Code (b2 % 16 * 4 + b3 / 64) :: b64Code (b3 % 64) :: base64Encode rest
          from rfl,
        base64Decode_quad _ _ _ _ _ _ _ _ _ (b64Val_b64Code _ (by omega))
          (b64Val_b64Code _ (by omega)) (b64Val_b64Code _ (by omega))
          (b64Val_b64Code _ (by omega)) (b64Code_ne_61 _ (by omega)) (b64Code_ne_61 _ (by omega)),
        ih]
      have e1 : b1 / 4 * 4 + (b1 % 4 * 16 + b2 / 16) / 16 = b1 := by omega
      have e2 : (b1 % 4 * 16 + b2 / 16) % 16 * 16 + (b2 % 16 * 4 + b3 / 64) / 4 = b2 := by omega
      have e3 : (b2 % 16 * 4 + b3 / 64) % 4 * 64 + b3 % 64 = b3 := by omega
      simp [e1, e2, e3]

/-- A log record as in the source: `LogRecord{When, Data_x64}`
(`src/core/http.go` lines 74-77).  `When` is a timestamp (modelled as a
`Nat`), `Data_x64` the base64 text (modelled as its byte codes). -/
structure LogRecord where
  When : Nat
  Data_x64 : List Nat
deriving DecidableEq

/-- Model of `NewLogRecord` (`src/core/http.go` lines 79-88): gzip the
payload, base64-encode the compressed bytes, pair with the timestamp.
The gzip writer from `compress/gzip` is an external collaborator and is
passed in as the function `gz`. -/
def NewLogRecord (gz : List Nat → List Nat) (t : Nat) (data : List Nat) : LogRecord :=
  ⟨t, base64Encode (gz data)⟩

/-- The decoding direction named by the spec: base64-decode `Data_x64`,
then gunzip the resulting bytes (the gunzip side of the external codec is
the parameter). -/
def decodeLogRecord (gunzip : List Nat → Option (List Nat)) (rec : LogRecord) :
    Option (List Nat) :=
  (base64Decode rec.Data_x64).bind gunzip

/-- Executable stand-in for the external gzip compressor, used only to
instantiate parametric theorems on concrete inputs: it prefixes the gzip
magic bytes 31, 139 and the deflate method byte 8. -/
def gzModel (data : List Nat) : List Nat :=
  31 :: 139 :: 8 :: data

/-- Executable stand-in for the external gzip decompressor matching
`gzModel`: strips the three header bytes, `none` if they are absent. -/
def gunzipModel : List Nat → Option (List Nat)
  | 31 :: 139 :: 8 :: rest => some rest
  | _ => none

/-- Log notices emitted by the subsystem, one constructor per
`log.Println` site in the modelled slice of `src/core/http.go`. -/
inductive LogMsg where
  | dumpFailure
  | errorOpeningOutfile
  | shutdownLogger
  | stopping
deriving DecidableEq

/-- The environment of the archive worker: the external collaborators it
calls.  `gz` is the gzip compressor, `jsonEnc` the JSON encoder for one
record (`none` = the encoder returns an error), `createOk` tells whether
the `util.Create` call of the n-th flush invocation succeeds. -/
structure LoggerEnv where
  gz : List Nat → List Nat
  jsonEnc : LogRecord → Option (List Nat)
  createOk : Nat → Bool

/-- The encoder loop of `flush` (`src/core/http.go` lines 108-112):
`encoder.Encode(requests[i])` for each record in the window, with the
returned error discarded, so a record that fails to encode contributes
no line. -/
def encodeLoop (enc : LogRecord → Option (List Nat)) : List LogRecord → List (List Nat)
  | [] => []
  | r :: rs =>
      match enc r with
      | some line => line :: encodeLoop enc rs
      | none => encodeLoop enc rs

/-- Model of `flush` (`src/core/http.go` lines 98-113): create the output
file (`fc` indexes this flush invocation into `env.createOk`); on failure
log the error and return without writing; on success write the JSON lines
of the records at indices `[0, records_to_dump)`.  Result: the file that
was written (`none` = creation failed, no file) and the log notices. -/
def flush (env : LoggerEnv) (requests : List LogRecord) (records_to_dump : Nat)
    (fc : Nat) : Option (List (List Nat)) × List LogMsg :=
  if env.createOk fc then
    (some (encodeLoop env.jsonEnc (requests.take records_to_dump)), [])
  else
    (none, [LogMsg.errorOpeningOutfile])

/-- The three inputs of the `Logger` select loop: an inbound raw event
(with the `time.Now()` value observed when it is handled), the flush-now
signal, and the shutdown signal. -/
inductive LoggerEvent where
  | raw (t : Nat) (data : List Nat)
  | flushNow
  | shutdown

/-- State of the `Logger` goroutine (`src/core/http.go` lines 115-142):
the 2048-slot buffer, the cursor `i`, the number of flush invocations so
far (only to index `createOk`), and whether the goroutine has returned. -/
structure LoggerState where
  buffer : List LogRecord
  i : Nat
  flushes : Nat
  stopped : Bool

/-- Outcome of handling events: the successor state, one entry in `files`
per flush invocation (the file written, or `none` when creation failed),
and the log notices in order. -/
structure LoggerOut where
  state : LoggerState
  files : List (Option (List (List Nat)))
  logs : List LogMsg

/-- Initial state of `Logger`: `make([]LogRecord, 2048, 2048)` (zero
records) and `i = 0`. -/
def initLogger : LoggerState :=
  ⟨List.replicate 2048 ⟨0, []⟩, 0, 0, false⟩

/-- One iteration of the `Logger` select loop (`src/core/http.go` lines
118-140) on one ready input.  A stopped logger (the goroutine returned)
processes nothing. -/
def loggerStep (env : LoggerEnv) (s : LoggerState) (ev : LoggerEvent) : LoggerOut :=
  if s.stopped then ⟨s, [], []⟩
  else
    match ev with
    | LoggerEvent.raw t data =>
        let logRecord := NewLogRecord env.gz t data
        let buffer := s.buffer.set s.i logRecord
        let i := s.i + 1
        if i > 2047 then
          let f := flush env buffer i s.flushes
          ⟨⟨buffer, 0, s.flushes + 1, false⟩, [f.1], f.2⟩
        else
          ⟨⟨buffer, i, s.flushes, false⟩, [], []⟩
    | LoggerEvent.flushNow =>
        if s.i > 0 then
          let f := flush env s.buffer s.i s.flushes
          ⟨⟨s.buffer, 0, s.flushes + 1, false⟩, [f.1], f.2⟩
        else
          ⟨s, [], []⟩
    | LoggerEvent.shutdown =>
        let f := flush env s.buffer s.i s.flushes
        ⟨⟨s.buffer, s.i, s.flushes + 1, true⟩, [f.1], f.2 ++ [LogMsg.shutdownLogger]⟩

/-- Run the `Logger` loop over a sequence of ready inputs, concatenating
the files written and the log notices. -/
def loggerRun (env : LoggerEnv) (s : LoggerState) : List LoggerEvent → LoggerOut
  | [] => ⟨s, [], []⟩
  | ev :: rest =>
      let o1 := loggerStep env s ev
      let o2 := loggerRun env o1.state rest
      ⟨o2.state, o1.files ++ o2.files, o1.logs ++ o2.logs⟩

/-- The event sequence of a burst of inbound raw events, one per
(timestamp, payload) pair. -/
def rawEvents (ps : List (Nat × List Nat)) : List LoggerEvent :=
  ps.map (fun p => LoggerEvent.raw p.1 p.2)

/-- Observable actions of the wrapped operation that
`RequestLogger.Handle` produces, in execution order. -/
inductive HandlerAction where
  | dumpRequest
  | logMsg (m : LogMsg)
  | innerHandler
  | sendToLogger (dump : Option (List Nat))
deriving DecidableEq

/-- A nil Go byte slice (the dump when `httputil.DumpRequest` failed) is
indistinguishable from the empty payload once it is read. -/
def nilBytes (dump : Option (List Nat)) : List Nat :=
  dump.getD []

/-- Model of `RequestLogger.Handle` (`src/core/http.go` lines 62-72).
`dumpFn` models `httputil.DumpRequest` on the request as received
(`none` = the dump fails, leaving a nil slice); `inner` is the wrapped
handler, which may mutate the request state.  Returns the action trace of
one invocation and the request state after the inner handler ran. -/
def RequestLoggerHandle (dumpFn : List Nat → Option (List Nat))
    (inner : List Nat → List Nat) (r : List Nat) : List HandlerAction × List Nat :=
  let dump := dumpFn r
  let dumpLog :=
    match dump with
    | some _ => []
    | none => [HandlerAction.logMsg LogMsg.dumpFailure]
  let rAfter := inner r
  (HandlerAction.dumpRequest :: dumpLog ++
    HandlerAction.innerHandler :: [HandlerAction.sendToLogger dump], rAfter)

/-- A value carried on one of the `interface{}` bus channels of the
broadcast hub: a boolean, a `*db.Message` (inbox) or a `*db.Envelope`
(outbox). -/
inductive BusMsg where
  | boolVal (b : Bool)
  | message (data : List Nat)
  | envelope (data : List Nat) (host : List Nat)
deriving DecidableEq

/-- Model of `drain` (`src/core/http.go` lines 648-656).  The source uses
a `switch` statement, not a `select`: the case expression `<-ch` is an
ordinary receive, so it blocks when the channel is empty (`none` here),
and the `default` clause is only reached when a received value fails the
comparison with `true`.  The result is the channel content left behind
when `drain` returns. -/
def drain : List BusMsg → Option (List BusMsg)
  | [] => none
  | v :: rest => if v = BusMsg.boolVal true then drain rest else some rest

/-- The teardown sequence of `streamer` after a writer failure
(`src/core/http.go` lines 619-626): after unsubscribing both channels,
`drain(inbox)` then `drain(outbox)`; `none` when the sequence blocks. -/
def streamerTeardown (inbox outbox : List BusMsg) :
    Option (List BusMsg × List BusMsg) :=
  match drain inbox with
  | none => none
  | some inboxLeft =>
      match drain outbox with
      | none => none
      | some outboxLeft => some (inboxLeft, outboxLeft)

/-- A subscription channel of the broadcast hub, characterised by its
capacity (`make(chan interface{}, 10)`). -/
structure StreamChan where
  cap : Nat
deriving DecidableEq

/-- Model of `notify.Start(topic, ch)` from the external go-notify bus:
register the channel under the topic name. -/
def notifyStart (bus : List (String × StreamChan)) (topic : String) (ch : StreamChan) :
    List (String × StreamChan) :=
  bus ++ [(topic, ch)]

/-- The subscription phase of `streamer` (`src/core/http.go` lines
590-594): create the two capacity-10 channels and register them on the
bus under the topic names used by the source. -/
def streamerStartup (bus : List (String × StreamChan)) : List (String × StreamChan) :=
  let inbox : StreamChan := ⟨10⟩
  let outbox : StreamChan := ⟨10⟩
  notifyStart (notifyStart bus "inbox" inbox) "outbox" outbox

theorem encodeLoop_eq_filterMap (enc : LogRecord → Option (List Nat)) :
    ∀ rs : List LogRecord, encodeLoop enc rs = rs.filterMap enc
  | [] => rfl
  | r :: rs => by
      cases henc : enc r <;>
        simp [encodeLoop, List.filterMap_cons, henc, encodeLoop_eq_filterMap enc rs]

theorem encodeLoop_map (enc : LogRecord → Option (List Nat)) (f : LogRecord → List Nat)
    (henc : ∀ r, enc r = some (f r)) :
    ∀ rs : List LogRecord, encodeLoop enc rs = rs.map f
  | [] => rfl
  | r :: rs => by simp [encodeLoop, henc r, encodeLoop_map enc f henc rs]

theorem encodeLoop_length (enc : LogRecord → Option (List Nat)) :
    ∀ rs : List LogRecord, (∀ r ∈ rs, (enc r).isSome = true) →
      (encodeLoop enc rs).length = rs.length
  | [], _ => rfl
  | r :: rs, h => by
      have hr : (enc r).isSome = true := h r (by simp)
      cases henc : enc r with
      | none => rw [henc] at hr; simp at hr
      | some line =>
          simp [encodeLoop, henc, encodeLoop_length enc rs (fun x hx => h x (by simp [hx]))]

theorem loggerRun_append (env : LoggerEnv) :
    ∀ (l1 l2 : List LoggerEvent) (s : LoggerState),
      loggerRun env s (l1 ++ l2) =
        ⟨(loggerRun env (loggerRun env s l1).state l2).state,
         (loggerRun env s l1).files ++ (loggerRun env (loggerRun env s l1).state l2).files,
         (loggerRun env s l1).logs ++ (loggerRun env (loggerRun env s l1).state l2).logs⟩
  | [], l2, s => by simp [loggerRun]
  | ev :: rest, l2, s => by
      simp [loggerRun, loggerRun_append env rest l2 (loggerStep env s ev).state,
        List.append_assoc]

theorem loggerRun_stopped (env : LoggerEnv) :
    ∀ (evs : List LoggerEvent) (s : LoggerState), s.stopped = true →
      loggerRun env s evs = ⟨s, [], []⟩
  | [], _, _ => rfl
  | ev :: rest, s, h => by
      simp [loggerRun, loggerStep, h, loggerRun_stopped env rest s h]

theorem loggerRun_raw_no_flush (env : LoggerEnv) :
    ∀ (ps : List (Nat × List Nat)) (s : LoggerState),
      s.stopped = false → s.buffer.length = 2048 → s.i + ps.length ≤ 2047 →
      ∃ buf : List LogRecord, buf.length = 2048 ∧
        loggerRun env s (rawEvents ps) = ⟨⟨buf, s.i + ps.length, s.flushes, false⟩, [], []⟩
  | [], s, hstop, hbuf, _ => by
      refine ⟨s.buffer, hbuf, ?_⟩
      cases s with
      | mk buffer i flushes stopped =>
          simp only at hstop
          subst hstop
          simp [rawEvents, loggerRun]
  | p :: ps, s, hstop, hbuf, hle => by
      have hlen : s.i + (ps.length + 1) ≤ 2047 := by simpa using hle
      have hnot : ¬ (s.i + 1 > 2047) := by omega
      obtain ⟨buf, hbuflen, hrun⟩ := loggerRun_raw_no_flush env ps
        ⟨s.buffer.set s.i (NewLogRecord env.gz p.1 p.2), s.i + 1, s.flushes, false⟩
        rfl (by simpa using hbuf) (by simp only; omega)
      refine ⟨buf, hbuflen, ?_⟩
      simp only [rawEvents, List.map_cons] at hrun ⊢
      simp [loggerRun, loggerStep, hstop, hnot, hrun]
      omega

/-- A JSON encoder instance that always succeeds, for instantiating the
parametric theorems on concrete inputs. -/
def jsonEncModel (r : LogRecord) : Option (List Nat) :=
  some (r.When :: r.Data_x64)

/-- A concrete logger environment: the model gzip codec, the
always-succeeding JSON encoder, and file creation that always succeeds. -/
def envModel : LoggerEnv :=
  ⟨gzModel, jsonEncModel, fun _ => true⟩

/-- A concrete logger environment whose file creation always fails. -/
def envModelNoCreate : LoggerEnv :=
  ⟨gzModel, jsonEncModel, fun _ => false⟩

/-- A request-dump operation that always fails, for instantiating the
dump-failure theorem. -/
def dumpFailFn : List Nat → Option (List Nat) :=
  fun _ => none

/-- C1: for every byte payload P, decoding the `Data_x64` field of the
`LogRecord` produced from P (base64-decode, then gunzip) yields exactly
P, byte-for-byte.  The gzip codec is the external `compress/gzip`
collaborator, given as the pair `gz`/`gunzip` satisfying its documented
round-trip contract at P; the base64 half is proved outright. -/
theorem logrecord_data_x64_roundtrip (gz : List Nat → List Nat)
    (gunzip : List Nat → Option (List Nat)) (t : Nat) (P : List Nat)
    (hbytes : ∀ b ∈ gz P, b < 256)
    (hcodec : gunzip (gz P) = some P) :
    decodeLogRecord gunzip (NewLogRecord gz t P) = some P := by
  unfold decodeLogRecord NewLogRecord
  simp [base64_roundtrip (gz P) hbytes, hcodec]

/-- Witness for C1 at a concrete payload and the executable model codec. -/
theorem logrecord_data_x64_roundtrip_witness :
    decodeLogRecord gunzipModel (NewLogRecord gzModel 0 [1, 255]) = some [1, 255] :=
  logrecord_data_x64_roundtrip gzModel gunzipModel 0 [1, 255] (by decide) rfl

/-- C2, evaluated at the failing input: with a subscription channel empty
at writer failure (the common case), `drain` blocks — the source uses a
`switch` statement whose case `<-ch` is a blocking receive, not a
`select` with a `default` — so the claimed never-blocking best-effort
drain does not happen and the relay task does not terminate. -/
theorem drain_blocks_on_empty_channel :
    drain [] = none ∧ streamerTeardown [] [] = none :=
  ⟨rfl, rfl⟩

/-- C7: in every invocation of the wrapped operation produced by the
archiving adapter, the request dump is captured before the inner
operation is invoked, and the captured dump — of the request as received,
not as left by the inner operation — is sent on the archive worker's
input channel only after the inner operation returned. -/
theorem handle_captures_before_inner_sends_after
    (dumpFn : List Nat → Option (List Nat)) (inner : List Nat → List Nat)
    (r : List Nat) :
    ∃ mid : List HandlerAction,
      (RequestLoggerHandle dumpFn inner r).1 =
        HandlerAction.dumpRequest :: mid ++
          [HandlerAction.innerHandler, HandlerAction.sendToLogger (dumpFn r)] ∧
      ∀ a ∈ mid, ∃ m, a = HandlerAction.logMsg m := by
  unfold RequestLoggerHandle
  cases h : dumpFn r with
  | some d => exact ⟨[], by simp [h], by simp⟩
  | none =>
      exact ⟨[HandlerAction.logMsg LogMsg.dumpFailure], by simp [h], by simp⟩

/-- C8 counterexample: the subscription phase of `streamer` does not
register the topic names "inbound" and "outbound"; the registered names
are "inbox" and "outbox". -/
theorem streamer_topics_not_inbound_outbound :
    (streamerStartup []).map Prod.fst ≠ ["inbound", "outbound"] := by
  decide

/-- C8 amended: at startup every broadcast-hub relay registers exactly
two subscriptions on the bus, under the topic names "inbox" and
"outbox", each a bounded channel of capacity 10. -/
theorem streamer_subscribes_inbox_outbox_cap10 (bus : List (String × StreamChan)) :
    streamerStartup bus = bus ++ [("inbox", ⟨10⟩), ("outbox", ⟨10⟩)] := by
  simp [streamerStartup, notifyStart]

/-- C9: when capturing the request dump fails, the failure is only
logged — the inner operation is still invoked and the nil dump is still
sent on the archive worker's input channel — and the worker archives that
nil dump as a record of an empty payload. -/
theorem handle_dump_failure_archives_empty
    (dumpFn : List Nat → Option (List Nat)) (inner : List Nat → List Nat)
    (r : List Nat) (env : LoggerEnv) (s : LoggerState) (t : Nat)
    (hdump : dumpFn r = none) (hstop : s.stopped = false) :
    (RequestLoggerHandle dumpFn inner r).1 =
      [HandlerAction.dumpRequest, HandlerAction.logMsg LogMsg.dumpFailure,
       HandlerAction.innerHandler, HandlerAction.sendToLogger none] ∧
    (loggerStep env s (LoggerEvent.raw t (nilBytes (dumpFn r)))).state.buffer =
      s.buffer.set s.i (NewLogRecord env.gz t []) := by
  constructor
  · simp [RequestLoggerHandle, hdump]
  · rw [hdump]
    by_cases hgt : s.i + 1 > 2047 <;> simp [loggerStep, hstop, hgt, nilBytes]

/-- Witness for C9 at a concrete failing dump and the initial worker
state. -/
theorem handle_dump_failure_archives_empty_witness :
    (RequestLoggerHandle dumpFailFn (fun r => r) []).1 =
      [HandlerAction.dumpRequest, HandlerAction.logMsg LogMsg.dumpFailure,
       HandlerAction.innerHandler, HandlerAction.sendToLogger none] ∧
    (loggerStep envModel initLogger (LoggerEvent.raw 0 (nilBytes (dumpFailFn [])))).state.buffer =
      initLogger.buffer.set initLogger.i (NewLogRecord envModel.gz 0 []) :=
  handle_dump_failure_archives_empty dumpFailFn (fun r => r) [] envModel initLogger 0 rfl rfl

/-- A concrete worker state with five buffered records. -/
def stateCursor5 : LoggerState :=
  ⟨List.replicate 2048 ⟨0, []⟩, 5, 0, false⟩

/-- A concrete worker state with one buffered record. -/
def stateCursor1 : LoggerState :=
  ⟨List.replicate 2048 ⟨0, []⟩, 1, 0, false⟩

/-- A JSON encoder that fails exactly on records with empty `Data_x64`,
for instantiating the encoding-error theorem. -/
def jsonEncFailEmpty (r : LogRecord) : Option (List Nat) :=
  if r.Data_x64 = [] then none else some (r.When :: r.Data_x64)

/-- A concrete logger environment whose JSON encoder can fail. -/
def envModelEncFail : LoggerEnv :=
  ⟨gzModel, jsonEncFailEmpty, fun _ => true⟩

/-- C4: on a flush-now signal with cursor count greater than 0, the
worker flushes exactly the records at indices [0, count) to one file and
resets the cursor to 0; with count 0 the signal is a no-op and no file is
created. -/
theorem logger_flush_now_signal (env : LoggerEnv) (s : LoggerState)
    (f : LogRecord → List Nat)
    (hstop : s.stopped = false)
    (hcreate : env.createOk s.flushes = true)
    (henc : ∀ r, env.jsonEnc r = some (f r)) :
    (0 < s.i →
      loggerStep env s LoggerEvent.flushNow =
        ⟨⟨s.buffer, 0, s.flushes + 1, false⟩,
         [some ((s.buffer.take s.i).map f)], []⟩) ∧
    (s.i = 0 → loggerStep env s LoggerEvent.flushNow = ⟨s, [], []⟩) := by
  constructor
  · intro hi
    simp [loggerStep, hstop, hi, flush, hcreate, encodeLoop_map env.jsonEnc f henc]
  · intro hi
    simp [loggerStep, hstop, hi]

/-- Witness for C4 with five buffered records. -/
theorem logger_flush_now_signal_witness :
    (0 < stateCursor5.i →
      loggerStep envModel stateCursor5 LoggerEvent.flushNow =
        ⟨⟨stateCursor5.buffer, 0, stateCursor5.flushes + 1, false⟩,
         [some ((stateCursor5.buffer.take stateCursor5.i).map
           (fun r => r.When :: r.Data_x64))], []⟩) ∧
    (stateCursor5.i = 0 →
      loggerStep envModel stateCursor5 LoggerEvent.flushNow = ⟨stateCursor5, [], []⟩) :=
  logger_flush_now_signal envModel stateCursor5 (fun r => r.When :: r.Data_x64)
    rfl rfl (fun _ => rfl)

/-- C5: a shutdown signal always invokes the flush operation (even with
cursor 0), logs the shutdown notice, and terminates the worker
permanently: afterwards no inbound event or flush-now signal is ever
processed again. -/
theorem logger_shutdown_always_flushes (env : LoggerEnv) (s : LoggerState)
    (hstop : s.stopped = false) :
    loggerStep env s LoggerEvent.shutdown =
      ⟨⟨s.buffer, s.i, s.flushes + 1, true⟩,
       [(flush env s.buffer s.i s.flushes).1],
       (flush env s.buffer s.i s.flushes).2 ++ [LogMsg.shutdownLogger]⟩ ∧
    ∀ evs : List LoggerEvent,
      loggerRun env (loggerStep env s LoggerEvent.shutdown).state evs =
        ⟨(loggerStep env s LoggerEvent.shutdown).state, [], []⟩ := by
  have hstep : loggerStep env s LoggerEvent.shutdown =
      ⟨⟨s.buffer, s.i, s.flushes + 1, true⟩,
       [(flush env s.buffer s.i s.flushes).1],
       (flush env s.buffer s.i s.flushes).2 ++ [LogMsg.shutdownLogger]⟩ := by
    simp [loggerStep, hstop]
  exact ⟨hstep, fun evs => by rw [hstep]; exact loggerRun_stopped env evs _ rfl⟩

/-- Witness for C5 at the initial state (cursor 0): the flush still
runs. -/
theorem logger_shutdown_always_flushes_witness :
    loggerStep envModel initLogger LoggerEvent.shutdown =
      ⟨⟨initLogger.buffer, initLogger.i, initLogger.flushes + 1, true⟩,
       [(flush envModel initLogger.buffer initLogger.i initLogger.flushes).1],
       (flush envModel initLogger.buffer initLogger.i initLogger.flushes).2 ++
         [LogMsg.shutdownLogger]⟩ ∧
    ∀ evs : List LoggerEvent,
      loggerRun envModel (loggerStep envModel initLogger LoggerEvent.shutdown).state evs =
        ⟨(loggerStep envModel initLogger LoggerEvent.shutdown).state, [], []⟩ :=
  logger_shutdown_always_flushes envModel initLogger rfl

/-- C6: if file creation fails during a flush, the error is logged and
the cycle abandoned: no file is produced, the cursor is still reset so
the cycle's buffered records are discarded and never retried, and the
worker goes on serving subsequent events. -/
theorem logger_flush_failure_discards (env : LoggerEnv) (s : LoggerState)
    (hstop : s.stopped = false) (hi : 0 < s.i)
    (hcreate : env.createOk s.flushes = false) :
    loggerStep env s LoggerEvent.flushNow =
      ⟨⟨s.buffer, 0, s.flushes + 1, false⟩, [none], [LogMsg.errorOpeningOutfile]⟩ ∧
    ∀ t data, loggerStep env ⟨s.buffer, 0, s.flushes + 1, false⟩ (LoggerEvent.raw t data) =
      ⟨⟨s.buffer.set 0 (NewLogRecord env.gz t data), 1, s.flushes + 1, false⟩, [], []⟩ := by
  constructor
  · simp [loggerStep, hstop, hi, flush, hcreate]
  · intro t data
    simp [loggerStep]

/-- Witness for C6 with one buffered record and failing file creation. -/
theorem logger_flush_failure_discards_witness :
    loggerStep envModelNoCreate stateCursor1 LoggerEvent.flushNow =
      ⟨⟨stateCursor1.buffer, 0, stateCursor1.flushes + 1, false⟩, [none],
       [LogMsg.errorOpeningOutfile]⟩ ∧
    ∀ t data,
      loggerStep envModelNoCreate ⟨stateCursor1.buffer, 0, stateCursor1.flushes + 1, false⟩
        (LoggerEvent.raw t data) =
      ⟨⟨stateCursor1.buffer.set 0 (NewLogRecord envModelNoCreate.gz t data), 1,
        stateCursor1.flushes + 1, false⟩, [], []⟩ :=
  logger_flush_failure_discards envModelNoCreate stateCursor1 rfl (by decide) rfl

/-- C10: during a flush, a JSON-encoding error on an individual record is
silently discarded: the flush neither aborts nor logs, the loop continues
with the remaining records, and the file is exactly the successful
encodings of the window, omitting any record that failed to encode. -/
theorem flush_skips_encode_errors (env : LoggerEnv) (requests : List LogRecord)
    (n fc : Nat) (hcreate : env.createOk fc = true) :
    flush env requests n fc = (some ((requests.take n).filterMap env.jsonEnc), []) ∧
    ∀ (r : LogRecord) (rs : List LogRecord), env.jsonEnc r = none →
      encodeLoop env.jsonEnc (r :: rs) = encodeLoop env.jsonEnc rs := by
  constructor
  · simp [flush, hcreate, encodeLoop_eq_filterMap]
  · intro r rs hr
    simp [encodeLoop, hr]

/-- Witness for C10 with an encoder that fails on the first record of the
window. -/
theorem flush_skips_encode_errors_witness :
    flush envModelEncFail [⟨0, []⟩, ⟨1, [5]⟩] 2 0 =
      (some (([⟨0, []⟩, ⟨1, [5]⟩] : List LogRecord).take 2 |>.filterMap
        envModelEncFail.jsonEnc), []) ∧
    ∀ (r : LogRecord) (rs : List LogRecord), envModelEncFail.jsonEnc r = none →
      encodeLoop envModelEncFail.jsonEnc (r :: rs) = encodeLoop envModelEncFail.jsonEnc rs :=
  flush_skips_encode_errors envModelEncFail [⟨0, []⟩, ⟨1, [5]⟩] 2 0 rfl

/-- C3: starting from the empty buffer, exactly 2048 inbound events with
no flush-now or shutdown signal trigger exactly one flush, producing one
archive file containing exactly 2048 records, with the cursor back at 0
afterward; after no prefix of the run does the worker hold more than 2048
unflushed records. -/
theorem logger_full_buffer_single_flush (env : LoggerEnv) (ps : List (Nat × List Nat))
    (hlen : ps.length = 2048)
    (henc : ∀ r, (env.jsonEnc r).isSome = true)
    (hcreate : env.createOk 0 = true) :
    (∃ f, (loggerRun env initLogger (rawEvents ps)).files = [some f] ∧ f.length = 2048) ∧
    (loggerRun env initLogger (rawEvents ps)).state.i = 0 ∧
    ∀ k, (loggerRun env initLogger ((rawEvents ps).take k)).state.i ≤ 2048 := by
  have hinit_len : initLogger.buffer.length = 2048 := by
    show (List.replicate 2048 (⟨0, []⟩ : LogRecord)).length = 2048
    rw [List.length_replicate]
  have htake : (ps.take 2047).length = 2047 := by
    rw [List.length_take, hlen]; omega
  have hdrop : (ps.drop 2047).length = 1 := by
    rw [List.length_drop, hlen]
  obtain ⟨p, hp⟩ := List.length_eq_one.mp hdrop
  obtain ⟨buf, hbuflen, hrun1⟩ :=
    loggerRun_raw_no_flush env (ps.take 2047) initLogger rfl hinit_len
      (by rw [htake]; exact Nat.le_refl _)
  rw [htake] at hrun1
  have hrun1' : loggerRun env initLogger (rawEvents (ps.take 2047)) =
      ⟨⟨buf, 2047, 0, false⟩, [], []⟩ := hrun1
  have hstep : loggerStep env ⟨buf, 2047, 0, false⟩ (LoggerEvent.raw p.1 p.2) =
      ⟨⟨buf.set 2047 (NewLogRecord env.gz p.1 p.2), 0, 1, false⟩,
       [some (encodeLoop env.jsonEnc
         ((buf.set 2047 (NewLogRecord env.gz p.1 p.2)).take 2048))], []⟩ := by
    simp [loggerStep, flush, hcreate]
  have hflen : (encodeLoop env.jsonEnc
      ((buf.set 2047 (NewLogRecord env.gz p.1 p.2)).take 2048)).length = 2048 := by
    rw [encodeLoop_length env.jsonEnc _ (fun r _ => henc r)]
    simp [hbuflen]
  have hsplit : rawEvents ps = rawEvents (ps.take 2047) ++ rawEvents [p] := by
    conv_lhs => rw [← List.take_append_drop 2047 ps, hp]
    simp [rawEvents]
  have hmain : loggerRun env initLogger (rawEvents ps) =
      ⟨⟨buf.set 2047 (NewLogRecord env.gz p.1 p.2), 0, 1, false⟩,
       [some (encodeLoop env.jsonEnc
         ((buf.set 2047 (NewLogRecord env.gz p.1 p.2)).take 2048))], []⟩ := by
    rw [hsplit, loggerRun_append, hrun1']
    simp [rawEvents, loggerRun, hstep]
  refine ⟨⟨_, by rw [hmain], hflen⟩, by rw [hmain], ?_⟩
  intro k
  by_cases hk : k ≤ 2047
  · have hmt : (rawEvents ps).take k = rawEvents (ps.take k) := by
      simp [rawEvents, List.map_take]
    have hkl : initLogger.i + (ps.take k).length ≤ 2047 := by
      show 0 + (ps.take k).length ≤ 2047
      rw [List.length_take, hlen]; omega
    obtain ⟨buf2, _, hrun2⟩ :=
      loggerRun_raw_no_flush env (ps.take k) initLogger rfl hinit_len hkl
    rw [hmt, hrun2]
    exact Nat.le_trans hkl (by omega)
  · have hall : (rawEvents ps).take k = rawEvents ps := by
      apply List.take_of_length_le
      simp [rawEvents, hlen]
      omega
    rw [hall, hmain]
    exact Nat.zero_le _

/-- Witness for C3 at a concrete burst of 2048 inbound events. -/
theorem logger_full_buffer_single_flush_witness :
    (∃ f, (loggerRun envModel initLogger
        (rawEvents (List.replicate 2048 ((0, []) : Nat × List Nat)))).files = [some f] ∧
      f.length = 2048) ∧
    (loggerRun envModel initLogger
      (rawEvents (List.replicate 2048 ((0, []) : Nat × List Nat)))).state.i = 0 ∧
    ∀ k, (loggerRun envModel initLogger
      ((rawEvents (List.replicate 2048 ((0, []) : Nat × List Nat))).take k)).state.i ≤ 2048 :=
  logger_full_buffer_single_flush envModel (List.replicate 2048 ((0, []) : Nat × List Nat))
    (by rw [List.length_replicate]) (fun _ => rfl) rfl
